import Mathlib

/-!
Shallow embedding of `src/main.rs` (Brainfuck parser, reference interpreter,
and ARM64 JIT compiler) together with proofs about the claims of the spec.

Conventions of the embedding:
* Rust `u8` cells are `Nat` values kept below 256 by the arithmetic itself;
  `+=`/`-=` on `u8` is modelled with an explicit `overflowChecks` flag
  (`true` = Rust debug profile, which panics on overflow; `false` = release
  profile, which wraps modulo 256).
* Rust panics (`panic!`, `unreachable!`, out-of-bounds indexing, arithmetic
  overflow with checks enabled) are modelled as `Except.error` values.
* `Vec::push`/`Vec::pop` are modelled with `List.concat` (push at the end)
  and pattern matching on the head of a cons-list used as a stack.
* The effectful part of `JitCompiler::compile` (libc calls) is modelled as
  an event trace, see `compileModel`.
-/

namespace BF

/-- The `Op` enum of `main.rs`.  `Inc`/`Dec` are parsed from `+`/`-` and act
on the current cell; `Left`/`Right` are parsed from `<`/`>` and move the
data pointer.  Branch targets are absolute instruction indices. -/
inductive Op where
  | Inc
  | Dec
  | Left
  | Right
  | Output
  | Input
  | JumpIfZero (addr : Nat)
  | JumpIfNonZero (addr : Nat)
deriving DecidableEq

/-- Outcomes of the parsing loop in `main`:
`unbalanced` models `return Err("Unbalanced jumps")`;
`indexOutOfRange` models the panic of `operations[addr]` when `addr` is out
of bounds; `unreachableHit` models the `unreachable!()` arm of the
back-patching `match`. -/
inductive ParseError where
  | unbalanced
  | indexOutOfRange
  | unreachableHit
deriving DecidableEq

/-- One iteration of the `for (i, char) in program.chars().enumerate()` loop
of `main`.  `i` is the character index (exactly as in the source, where the
enumeration index of the character — not the instruction count — is pushed
on `jump_op_stack` and used for back-patching). -/
def parseStep (i : Nat) (c : Char) (ops : List Op) (stack : List Nat) :
    Except ParseError (List Op × List Nat) :=
  match c with
  | '+' => .ok (ops.concat .Inc, stack)
  | '-' => .ok (ops.concat .Dec, stack)
  | '<' => .ok (ops.concat .Left, stack)
  | '>' => .ok (ops.concat .Right, stack)
  | '.' => .ok (ops.concat .Output, stack)
  | ',' => .ok (ops.concat .Input, stack)
  | '[' => .ok (ops.concat (.JumpIfZero 0), i :: stack)
  | ']' =>
    match stack with
    | [] => .error .unbalanced
    | addr :: rest =>
      let ops2 := ops.concat (.JumpIfNonZero (addr + 1))
      match ops2[addr]? with
      | some (.JumpIfZero _) => .ok (ops2.set addr (.JumpIfZero (i + 1)), rest)
      | some _ => .error .unreachableHit
      | none => .error .indexOutOfRange
  | _ => .ok (ops, stack)

/-- The whole parsing loop, folding `parseStep` over the remaining
characters; `i` is the index of the first character of `cs` in the full
program text.  Note that, as in the source, nothing checks that the jump
stack is empty once the characters are exhausted. -/
def parseAux : Nat → List Char → List Op → List Nat → Except ParseError (List Op)
  | _, [], ops, _ => .ok ops
  | i, c :: cs, ops, stack =>
    match parseStep i c ops stack with
    | .error e => .error e
    | .ok (ops', stack') => parseAux (i + 1) cs ops' stack'

/-- Parsing a full program, starting from the empty `operations` vector and
the empty `jump_op_stack`, as in `main`. -/
def parseProgram (program : List Char) : Except ParseError (List Op) :=
  parseAux 0 program [] []

/-- The spec's target-correspondence property over a parsed instruction
sequence: every `JumpIfZero` at index `i` with target `t` is matched at
index `t - 1` by a `JumpIfNonZero` whose target is `i + 1`. -/
def bracketCorrespondence (ops : List Op) : Prop :=
  ∀ i t, ops[i]? = some (.JumpIfZero t) →
    ops[t - 1]? = some (.JumpIfNonZero (i + 1))

/-- Fatal conditions of `Interpreter::run`: `overflow` models the arithmetic
overflow panic of `+=`/`-=` on `u8` (debug profile only), `pointerUnderflow`
models `panic!("Tried to move left when dp was 0")`, and `outOfBounds`
models the index panic of `self.cells[dp]` when `dp ≥ 1000`. -/
inductive RunError where
  | overflow
  | pointerUnderflow
  | outOfBounds
deriving DecidableEq

/-- State of `Interpreter::run`: the 1000-cell tape, data pointer,
instruction pointer, the remaining input bytes of the reader, and the bytes
written so far to the writer. -/
structure St where
  cells : List Nat
  dp : Nat
  ip : Nat
  reader : List Nat
  output : List Nat
deriving DecidableEq

/-- Rust `b += 1` on a `u8` cell: with overflow checks enabled (debug
profile) incrementing 255 panics; with checks disabled (release) it wraps
to 0. -/
def byteAdd (oc : Bool) (b : Nat) : Except RunError Nat :=
  if b = 255 then (if oc then .error .overflow else .ok 0) else .ok (b + 1)

/-- Rust `b -= 1` on a `u8` cell: with overflow checks enabled decrementing
0 panics; with checks disabled it wraps to 255. -/
def byteSub (oc : Bool) (b : Nat) : Except RunError Nat :=
  if b = 0 then (if oc then .error .overflow else .ok 255) else .ok (b - 1)

/-- One iteration of the `while ip < self.ops.len()` loop of
`Interpreter::run`.  Cell accesses go through `List.get?`, so an access
with `dp` outside the tape is the Rust index panic (`outOfBounds`).
`Input` models `Read::read` on a finite byte stream: an exhausted reader
returns zero bytes read and the stack buffer `[0; 1]` keeps its zero, which
is then stored into the cell. -/
def step (oc : Bool) (ops : List Op) (s : St) : Except RunError St :=
  match ops[s.ip]? with
  | none => .ok s
  | some op =>
    match op with
    | .Inc =>
      match s.cells[s.dp]? with
      | none => .error .outOfBounds
      | some b =>
        match byteAdd oc b with
        | .error e => .error e
        | .ok v => .ok { s with cells := s.cells.set s.dp v, ip := s.ip + 1 }
    | .Dec =>
      match s.cells[s.dp]? with
      | none => .error .outOfBounds
      | some b =>
        match byteSub oc b with
        | .error e => .error e
        | .ok v => .ok { s with cells := s.cells.set s.dp v, ip := s.ip + 1 }
    | .Left =>
      if 0 < s.dp then .ok { s with dp := s.dp - 1, ip := s.ip + 1 }
      else .error .pointerUnderflow
    | .Right => .ok { s with dp := s.dp + 1, ip := s.ip + 1 }
    | .Output =>
      match s.cells[s.dp]? with
      | none => .error .outOfBounds
      | some b => .ok { s with output := s.output ++ [b], ip := s.ip + 1 }
    | .Input =>
      let b := s.reader.headD 0
      if s.dp < s.cells.length then
        .ok { s with cells := s.cells.set s.dp b, reader := s.reader.tail,
                     ip := s.ip + 1 }
      else .error .outOfBounds
    | .JumpIfZero addr =>
      match s.cells[s.dp]? with
      | none => .error .outOfBounds
      | some b =>
        if b = 0 then .ok { s with ip := addr } else .ok { s with ip := s.ip + 1 }
    | .JumpIfNonZero addr =>
      match s.cells[s.dp]? with
      | none => .error .outOfBounds
      | some b =>
        if b ≠ 0 then .ok { s with ip := addr } else .ok { s with ip := s.ip + 1 }

/-- Result of running the interpreter loop with bounded fuel:
`done` carries the bytes written to the writer on normal termination
(`ip` reached the end), `fail` a fatal condition, `timeout` fuel
exhaustion. -/
inductive Outcome where
  | done (out : List Nat)
  | fail (e : RunError)
  | timeout
deriving DecidableEq

/-- The `while ip < self.ops.len()` loop of `Interpreter::run`, with fuel to
keep the definition total (a Brainfuck loop may diverge). -/
def runAux (oc : Bool) (ops : List Op) : Nat → St → Outcome
  | 0, _ => .timeout
  | fuel + 1, s =>
    if s.ip < ops.length then
      match step oc ops s with
      | .error e => .fail e
      | .ok s' => runAux oc ops fuel s'
    else .done s.output

/-- A fresh interpreter state as built by `Interpreter::new`: a
zero-initialized 1000-cell tape, both pointers at 0, a given input stream
and an empty output. -/
def initSt (input : List Nat) : St :=
  { cells := List.replicate 1000 0, dp := 0, ip := 0, reader := input, output := [] }

/-- Running `Interpreter::run` on a fresh interpreter for `ops`. -/
def runProgram (oc : Bool) (ops : List Op) (input : List Nat) (fuel : Nat) : Outcome :=
  runAux oc ops fuel (initSt input)

/-- The bytes `JitCompiler::compile` appends to `code` for one `Op`.  The
byte values are copied verbatim from the `extend_from_slice` calls of the
source; note that the `Input`, `JumpIfZero` and `JumpIfNonZero` arms of the
`match` are empty, so those operations contribute no bytes at all. -/
def compileOpBytes : Op → List Nat
  | .Inc => [0x01, 0x00, 0x40, 0x39, 0x21, 0x04, 0x00, 0x11, 0x01, 0x00, 0x00, 0x39]
  | .Dec => [0x01, 0x00, 0x40, 0x39, 0x21, 0x04, 0x00, 0x51, 0x01, 0x00, 0x00, 0x39]
  | .Left => [0x00, 0x04, 0x00, 0xD1]
  | .Right => [0x00, 0x04, 0x00, 0x91]
  | .Output =>
    [0xE3, 0x03, 0x00, 0xAA,
     0x20, 0x00, 0x80, 0xD2,
     0xE1, 0x03, 0x03, 0xAA,
     0x22, 0x00, 0x80, 0xD2,
     0x90, 0x00, 0x80, 0xD2,
     0x01, 0x00, 0x00, 0xD4,
     0xE0, 0x03, 0x03, 0xAA]
  | .Input => []
  | .JumpIfZero _ => []
  | .JumpIfNonZero _ => []

/-- The whole machine-code buffer built by `JitCompiler::compile`: the
per-op bytes in order, followed by the unconditional `RET`
(`C0 03 5F D6`). -/
def codeBytes (ops : List Op) : List Nat :=
  (ops.map compileOpBytes).flatten ++ [0xC0, 0x03, 0x5F, 0xD6]

/-- Arguments of the `libc::mmap` call in `JitCompiler::compile`: the length
of the code buffer, the protection bits `PROT_READ | PROT_WRITE | PROT_EXEC`
and the flags `MAP_ANON | MAP_PRIVATE | MAP_JIT`. -/
structure MmapArgs where
  len : Nat
  read : Bool
  write : Bool
  exec : Bool
  anon : Bool
  priv : Bool
  jit : Bool
deriving DecidableEq

/-- One observable effect of the JIT pipeline:
`writeProtect n` is `pthread_jit_write_protect_np(n)` (0 = make the JIT
region writable for this thread, 1 = make it executable again);
`mmapCall` is the `libc::mmap` allocation together with whether it
succeeded; `copyNonoverlapping n` is `ptr::copy_nonoverlapping` of `n`
bytes from the code buffer into the mapping; `transmute` is the
`std::mem::transmute` of the mapping's base address into a function
pointer; `callFn` is the invocation `func(mmr_addr)` performed by `main`. -/
inductive JitEvent where
  | writeProtect (flag : Nat)
  | mmapCall (args : MmapArgs) (ok : Bool)
  | copyNonoverlapping (len : Nat)
  | transmute
  | callFn
deriving DecidableEq

/-- The effectful part of `JitCompiler::compile`, as the pair of its result
(the bytes now sitting in executable memory, or `none` when the `mmap`
failure branch panics) and the ordered trace of its libc-level effects.
The order of events in the trace follows the source line by line:
`pthread_jit_write_protect_np(0)`, then `mmap`, then — only on success —
`copy_nonoverlapping`, `pthread_jit_write_protect_np(1)` and the
`transmute` to a function pointer. -/
def compileModel (ops : List Op) (mmapOk : Bool) :
    Option (List Nat) × List JitEvent :=
  let code := codeBytes ops
  let args : MmapArgs :=
    { len := code.length, read := true, write := true, exec := true,
      anon := true, priv := true, jit := true }
  if mmapOk then
    (some code,
     [.writeProtect 0, .mmapCall args true, .copyNonoverlapping code.length,
      .writeProtect 1, .transmute])
  else
    (none, [.writeProtect 0, .mmapCall args false])

/-- The trace of `main`'s JIT path: compile, then invoke the returned
function pointer on the tape's base address (`func(mmr_addr)`).  When
`mmap` fails, `compile` panics and the call never happens. -/
def mainEvents (ops : List Op) (mmapOk : Bool) : List JitEvent :=
  (compileModel ops mmapOk).2 ++ (if mmapOk then [.callFn] else [])

/-- The tape `main` hands to the compiled function:
`let jit_memory = [65; 1024];`. -/
def jit_memory : List Nat := List.replicate 1024 65

end BF

namespace BF

set_option maxRecDepth 40000

/-- An index at which `List.get?` returns a value is inside the list. -/
theorem lt_length_of_get_some {l : List Op} {n : Nat} {o : Op}
    (h : l[n]? = some o) : n < l.length := by
  rcases Nat.lt_or_ge n l.length with h' | h'
  · exact h'
  · rw [List.getElem?_eq_none h'] at h
    cases h

/-- Claim C1: the claim asserts that the JIT-compiled code and the Reference
Interpreter produce identical output for every program, in particular for
"+++[-].".  The code violates this: `JitCompiler::compile` emits no bytes
for `Input`, `JumpIfZero` and `JumpIfNonZero`, so the machine-code buffer
for "+++[-]." is byte-for-byte the buffer for "+++-.", whose execution
outputs byte 2, while the Reference Interpreter on "+++[-]." outputs
byte 0. -/
theorem C1_jit_omits_branches :
    parseProgram ['+', '+', '+', '[', '-', ']', '.'] =
      .ok [.Inc, .Inc, .Inc, .JumpIfZero 6, .Dec, .JumpIfNonZero 4, .Output] ∧
    parseProgram ['+', '+', '+', '-', '.'] =
      .ok [.Inc, .Inc, .Inc, .Dec, .Output] ∧
    codeBytes [.Inc, .Inc, .Inc, .JumpIfZero 6, .Dec, .JumpIfNonZero 4, .Output] =
      codeBytes [.Inc, .Inc, .Inc, .Dec, .Output] ∧
    runProgram true [.Inc, .Inc, .Inc, .JumpIfZero 6, .Dec, .JumpIfNonZero 4, .Output]
      [] 50 = .done [0] ∧
    runProgram true [.Inc, .Inc, .Inc, .Dec, .Output] [] 50 = .done [2] :=
  ⟨rfl, rfl, rfl, rfl, rfl⟩

/-- Claim C2: the claim asserts the forward/backward target correspondence
for every source with balanced brackets.  The code violates this: the
parser pushes the character index (not the instruction index) for
back-patching, so for the balanced source "[a]" it produces
`[JumpIfZero 3, JumpIfNonZero 1]`, where the `JumpIfZero` at index 0 has
target 3 although the sequence has only 2 instructions — the instruction at
index `t - 1 = 2` does not exist. -/
theorem C2_char_index_backpatch :
    parseProgram ['[', 'a', ']'] = .ok [.JumpIfZero 3, .JumpIfNonZero 1] ∧
    ¬ bracketCorrespondence [.JumpIfZero 3, .JumpIfNonZero 1] :=
  ⟨rfl, fun h => nomatch h 0 3 rfl⟩

/-- Claim C3: the claim asserts that non-instruction characters are ignored
without error and do not change the parse.  The code violates this: for the
balanced source "a[]" the back-patch indexes `operations` with the
character index 1, which holds the just-pushed `JumpIfNonZero`, so the
`unreachable!()` arm panics, while the same source without the comment
character parses fine. -/
theorem C3_comment_chars_panic :
    parseProgram ['a', '[', ']'] = .error .unreachableHit ∧
    parseProgram ['[', ']'] = .ok [.JumpIfZero 2, .JumpIfNonZero 1] :=
  ⟨rfl, rfl⟩

/-- Claim C4 counterexample: the claim asserts that unmatched open-brackets
remaining at end of input (e.g. "[[") make the parser fail with the
unbalanced-brackets error, but the parsing loop of `main` never checks that
`jump_op_stack` is empty after the scan: "[[ " parses successfully into two
placeholder `JumpIfZero 0` instructions. -/
theorem C4_unmatched_open_accepted :
    parseProgram ['[', '['] = .ok [.JumpIfZero 0, .JumpIfZero 0] := rfl

/-- Claim C4 as amended: a close-bracket with no matching open-bracket makes
the parser fail with the unbalanced-brackets error (here: any source
starting with ']'), but unmatched open-brackets remaining at end of input
are not detected — when the characters are exhausted the parser returns
the accumulated instructions regardless of the leftover jump stack. -/
theorem C4_close_fails_open_ignored :
    (∀ cs : List Char, parseProgram (']' :: cs) = .error .unbalanced) ∧
    (∀ (i : Nat) (ops : List Op) (stack : List Nat),
      parseAux i [] ops stack = .ok ops) :=
  ⟨fun _ => rfl, fun _ _ _ => rfl⟩

/-- Claim C5: a `Left` (DecrementPointer) instruction executed while the
data pointer is 0 fails with the pointer-underflow panic and the run loop
terminates with that failure; with a positive data pointer it decrements
the pointer by one and execution continues with the next instruction. -/
theorem C5_pointer_underflow (oc : Bool) (ops : List Op) (s : St)
    (h : ops[s.ip]? = some .Left) :
    (s.dp = 0 → step oc ops s = .error .pointerUnderflow ∧
      ∀ fuel, runAux oc ops (fuel + 1) s = .fail .pointerUnderflow) ∧
    (0 < s.dp → step oc ops s = .ok { s with dp := s.dp - 1, ip := s.ip + 1 }) := by
  have hlt : s.ip < ops.length := lt_length_of_get_some h
  constructor
  · intro hdp
    have hstep : step oc ops s = .error .pointerUnderflow := by
      simp [step, h, hdp]
    exact ⟨hstep, fun fuel => by simp [runAux, hlt, hstep]⟩
  · intro hdp
    simp [step, h, hdp]

/-- Witness for C5 at concrete inputs: the one-instruction program `[Left]`
underflows from a fresh state, and decrements the pointer from a state with
`dp = 1`. -/
theorem C5_pointer_underflow_witness :
    step true [Op.Left] (initSt []) = .error .pointerUnderflow ∧
    step true [Op.Left] { initSt [] with dp := 1 } =
      .ok { initSt [] with dp := 0, ip := 1 } := by
  refine ⟨((C5_pointer_underflow true [Op.Left] (initSt []) rfl).1 rfl).1, ?_⟩
  exact (C5_pointer_underflow true [Op.Left] { initSt [] with dp := 1 } rfl).2
    (by decide)

/-- Claim C6: the effect trace of `JitCompiler::compile` (when `mmap`
succeeds) is exactly: write-protection off, the anonymous private
read+write+execute `mmap`, one non-overlapping copy of the code bytes,
write-protection back on, and only then the `transmute` to a function
pointer; no invocation of the region occurs inside `compile` (in
particular none between the two protection toggles), and `main` calls the
compiled function only after `compile` returns. -/
theorem C6_wx_discipline (ops : List Op) :
    (compileModel ops true).2 =
      [.writeProtect 0,
       .mmapCall { len := (codeBytes ops).length, read := true, write := true,
                   exec := true, anon := true, priv := true, jit := true } true,
       .copyNonoverlapping (codeBytes ops).length,
       .writeProtect 1,
       .transmute] ∧
    JitEvent.callFn ∉ (compileModel ops true).2 ∧
    mainEvents ops true = (compileModel ops true).2 ++ [.callFn] := by
  refine ⟨rfl, ?_, rfl⟩
  intro hmem
  simp [compileModel] at hmem

/-- Witness for C6 at the empty program. -/
theorem C6_wx_discipline_witness :
    (compileModel [] true).2 =
      [.writeProtect 0,
       .mmapCall { len := (codeBytes []).length, read := true, write := true,
                   exec := true, anon := true, priv := true, jit := true } true,
       .copyNonoverlapping (codeBytes []).length,
       .writeProtect 1,
       .transmute] ∧
    JitEvent.callFn ∉ (compileModel [] true).2 ∧
    mainEvents [] true = (compileModel [] true).2 ++ [.callFn] :=
  C6_wx_discipline []

/-- Claim C7 counterexample: the claim asserts wrapping (never fatal) 8-bit
cell arithmetic, but the interpreter uses plain `+=`/`-=` on `u8`, which
panics on overflow under the default (debug) profile: the program `[-]`...
more precisely a single `Dec` from the fresh zero tape, and 256 consecutive
`Inc`s (incrementing a cell holding 255), both abort with the overflow
panic instead of wrapping. -/
theorem C7_overflow_panics_in_debug :
    runProgram true [Op.Dec] [] 10 = .fail .overflow ∧
    runProgram true (List.replicate 256 Op.Inc) [] 300 = .fail .overflow := by
  constructor
  · rfl
  · decide

/-- Claim C7 as amended: `Inc`/`Dec` perform unchecked native `u8`
arithmetic.  With overflow checks disabled (release profile) incrementing
a cell holding 255 yields 0, decrementing a cell holding 0 yields 255, and
execution continues; with overflow checks enabled (the default debug
profile) both cases abort with an overflow panic. -/
theorem C7_unchecked_cell_arithmetic :
    (∀ (ops : List Op) (s : St), ops[s.ip]? = some .Inc →
      s.cells[s.dp]? = some 255 →
      step false ops s = .ok { s with cells := s.cells.set s.dp 0, ip := s.ip + 1 }) ∧
    (∀ (ops : List Op) (s : St), ops[s.ip]? = some .Dec →
      s.cells[s.dp]? = some 0 →
      step false ops s = .ok { s with cells := s.cells.set s.dp 255, ip := s.ip + 1 }) ∧
    (∀ (ops : List Op) (s : St), ops[s.ip]? = some .Inc →
      s.cells[s.dp]? = some 255 → step true ops s = .error .overflow) ∧
    (∀ (ops : List Op) (s : St), ops[s.ip]? = some .Dec →
      s.cells[s.dp]? = some 0 → step true ops s = .error .overflow) := by
  refine ⟨?_, ?_, ?_, ?_⟩ <;> intro ops s h hc <;>
    simp [step, h, hc, byteAdd, byteSub]

/-- Witness for C7's amended statement at concrete one-cell states. -/
theorem C7_unchecked_cell_arithmetic_witness :
    step false [Op.Inc] { cells := [255], dp := 0, ip := 0, reader := [], output := [] } =
      .ok { cells := [0], dp := 0, ip := 1, reader := [], output := [] } ∧
    step true [Op.Dec] { cells := [0], dp := 0, ip := 0, reader := [], output := [] } =
      .error .overflow :=
  ⟨C7_unchecked_cell_arithmetic.1 [Op.Inc]
      { cells := [255], dp := 0, ip := 0, reader := [], output := [] } rfl rfl,
   C7_unchecked_cell_arithmetic.2.2.2 [Op.Dec]
      { cells := [0], dp := 0, ip := 0, reader := [], output := [] } rfl rfl⟩

/-- Claim C8 counterexample: the claim asserts that an exhausted input
source makes `Input` fail with an input-exhausted error, but `Read::read`
on an exhausted source returns `Ok(0)`, the `unwrap` succeeds, the stack
buffer `[0; 1]` keeps its zero, and the cell is set to 0: the program
`,.` with empty input runs to completion and outputs byte 0. -/
theorem C8_eof_zero_fills :
    runProgram true [Op.Input, Op.Output] [] 10 = .done [0] := rfl

/-- Claim C8 as amended: `Input` reads at most one byte: when the source
yields a byte it is stored into the current cell and removed from the
source; when the source is exhausted the cell is set to 0; in both cases
execution continues with the next instruction (no error). -/
theorem C8_input_reads_or_zero_fills (oc : Bool) (ops : List Op) (s : St)
    (h : ops[s.ip]? = some .Input) (hdp : s.dp < s.cells.length) :
    step oc ops s = .ok { s with cells := s.cells.set s.dp (s.reader.headD 0),
                                 reader := s.reader.tail, ip := s.ip + 1 } := by
  simp [step, h, hdp]

/-- Witness for C8's amended statement: one byte available, and exhausted
input. -/
theorem C8_input_witness :
    step true [Op.Input] { cells := [9], dp := 0, ip := 0, reader := [5], output := [] } =
      .ok { cells := [5], dp := 0, ip := 1, reader := [], output := [] } ∧
    step true [Op.Input] { cells := [9], dp := 0, ip := 0, reader := [], output := [] } =
      .ok { cells := [0], dp := 0, ip := 1, reader := [], output := [] } :=
  ⟨C8_input_reads_or_zero_fills true [Op.Input]
      { cells := [9], dp := 0, ip := 0, reader := [5], output := [] } rfl (by decide),
   C8_input_reads_or_zero_fills true [Op.Input]
      { cells := [9], dp := 0, ip := 0, reader := [], output := [] } rfl (by decide)⟩

/-- Claim C9: `main` builds the tape it passes to the compiled function as
`[65; 1024]`: it has 1024 cells, every cell holds 65 (ASCII 'A'), and in
particular every cell is nonzero at the start of compiled execution. -/
theorem C9_tape_all_65 :
    jit_memory.length = 1024 ∧
    (∀ i, i < 1024 → jit_memory[i]? = some 65) ∧
    (∀ b ∈ jit_memory, b ≠ 0) := by
  refine ⟨by simp [jit_memory], fun i hi => ?_, fun b hb => ?_⟩
  · rw [jit_memory]
    exact List.getElem?_replicate_of_lt hi
  · rw [List.eq_of_mem_replicate hb]
    decide

/-- Witness for C9 at cell index 0. -/
theorem C9_tape_all_65_witness :
    jit_memory[0]? = some 65 ∧ (65 : Nat) ≠ 0 :=
  ⟨C9_tape_all_65.2.1 0 (by decide),
   C9_tape_all_65.2.2 65 (List.mem_replicate.mpr ⟨by decide, rfl⟩)⟩

/-- Claim C10: every tape access of the interpreter is bounds-checked: on a
1000-cell tape, executing any cell-accessing instruction (`Inc`, `Dec`,
`Output`, `Input`, or either branch test) with the data pointer at 1000 or
beyond aborts deterministically with the out-of-bounds failure. -/
theorem C10_tape_bounds_checked (oc : Bool) (ops : List Op) (s : St) (op : Op)
    (h : ops[s.ip]? = some op)
    (hlen : s.cells.length = 1000) (hdp : 1000 ≤ s.dp)
    (hop : op = .Inc ∨ op = .Dec ∨ op = .Output ∨ op = .Input ∨
           (∃ a, op = .JumpIfZero a) ∨ (∃ a, op = .JumpIfNonZero a)) :
    step oc ops s = .error .outOfBounds := by
  have hget : s.cells[s.dp]? = none := by
    apply List.getElem?_eq_none
    rw [hlen]
    exact hdp
  have hnlt : ¬ s.dp < s.cells.length := by
    rw [hlen]
    omega
  rcases hop with h1 | h1 | h1 | h1 | ⟨a, h1⟩ | ⟨a, h1⟩ <;> subst h1 <;>
    simp [step, h, hget, hnlt]

/-- Witness for C10: an `Output` with the data pointer one past the last
cell of the 1000-cell tape aborts with the out-of-bounds failure. -/
theorem C10_tape_bounds_checked_witness :
    step true [Op.Output] { initSt [] with dp := 1000 } = .error .outOfBounds :=
  C10_tape_bounds_checked true [Op.Output] { initSt [] with dp := 1000 } Op.Output
    rfl (by simp [initSt]) (by decide)
    (Or.inr (Or.inr (Or.inl rfl)))

end BF
